import Mathlib

/-!
# Verification of the quiz-generation core of the study-buddy backend

This file gives a shallow embedding of the functions in `ai_services.py`
(`chunk_text`, `generate_quiz`, `parse_quiz_response`,
`validate_quiz_questions`, `regenerate_if_needed`) and proves the spec's
claims about them.

Conventions of the embedding:
* Python strings are `String` / `List Char`; the specific regular
  expressions used by the source are hand-compiled to character-list
  scanners that implement exactly the search/backtracking behaviour of
  those patterns (documented at each definition).
* The external Gemini model client is an oracle
  `Nat → String → Except String String`: call index and prompt in,
  completion text or a raised error message out.
* Raised Python exceptions are `Except` error values; `PyError`
  distinguishes an ordinary raised `Exception` from the
  `UnboundLocalError`/`NameError` of reading a never-assigned local.
-/

set_option autoImplicit false

namespace StudyBuddy

/-- Whitespace as matched by Python's `str.split` / `str.strip` / `\s`
(restricted to the ASCII whitespace characters that can occur here). -/
def isWS (c : Char) : Bool := c.isWhitespace

/-- Python `text.split()`: split on runs of whitespace, dropping empties.
`splitWSGo cs acc` scans `cs`, `acc` holding the current word reversed. -/
def splitWSGo : List Char → List Char → List String
  | [], [] => []
  | [], acc => [String.mk acc.reverse]
  | c :: cs, acc =>
    if isWS c then
      match acc with
      | [] => splitWSGo cs []
      | _ :: _ => String.mk acc.reverse :: splitWSGo cs []
    else splitWSGo cs (c :: acc)

/-- Python `text.split()` on a `String`. -/
def pySplit (s : String) : List String := splitWSGo s.data []

/-- Python `' '.join(ws)`. -/
def sjoin : List String → String
  | [] => ""
  | [w] => w
  | w :: ws => w ++ " " ++ sjoin ws

/-- The loop of `chunk_text`: `ws` are the remaining words, `chunks` the
finished chunks, `cur` the current chunk's words, `len` the running
`current_length`. Mirrors the Python loop body statement for statement. -/
def chunkTextGo (maxLength : Nat) :
    List String → List String → List String → Nat → List String
  | [], chunks, cur, _ =>
    match cur with
    | [] => chunks
    | _ :: _ => chunks ++ [sjoin cur]
  | w :: ws, chunks, cur, len =>
    let wordLength := w.length + 1
    if len + wordLength > maxLength then
      chunkTextGo maxLength ws (chunks ++ [sjoin cur]) [w] wordLength
    else
      chunkTextGo maxLength ws chunks (cur ++ [w]) (len + wordLength)

/-- `chunk_text(text, max_length=4000)` from `ai_services.py`. -/
def chunk_text (text : String) (maxLength : Nat := 4000) : List String :=
  chunkTextGo maxLength (pySplit text) [] [] 0

/-! ## The quiz response parser -/

/-- Python `block.strip()` at the character-list level. -/
def stripChars (s : List Char) : List Char :=
  ((s.dropWhile isWS).reverse.dropWhile isWS).reverse

/-- ASCII uppercase of the lowercase letters appearing in the parser's
case-insensitive patterns (`correct:`, `true`, `false`, the option
letters); other characters are unchanged.  Models Python's
`str.upper()` on those characters and the `re.IGNORECASE` flag. -/
def upChar : Char → Char
  | 'a' => 'A'
  | 'b' => 'B'
  | 'c' => 'C'
  | 'd' => 'D'
  | 'e' => 'E'
  | 'f' => 'F'
  | 'l' => 'L'
  | 'o' => 'O'
  | 'r' => 'R'
  | 's' => 'S'
  | 't' => 'T'
  | 'u' => 'U'
  | c => c

/-- Case-insensitive match of one subject character `c` against a
lowercase pattern character `pat` (`re.IGNORECASE` on ASCII). -/
def ciMatch (pat c : Char) : Bool := c == pat || c == upChar pat

/-- Case-insensitive "the pattern `ps` is a prefix of `cs`". -/
def ciIsPrefix : List Char → List Char → Bool
  | [], _ => true
  | _ :: _, [] => false
  | p :: ps, c :: cs => ciMatch p c && ciIsPrefix ps cs

/-- The characters of the literal pattern `Correct:` (matched
case-insensitively by the parser's correct-answer regexes). -/
def correctPat : List Char := ['c', 'o', 'r', 'r', 'e', 'c', 't', ':']

/-- An uppercase option letter `A`–`D` (the character class `[A-D]`). -/
def isOptLetter (c : Char) : Bool := c == 'A' || c == 'B' || c == 'C' || c == 'D'

/-- An option letter in either case (the class `[A-D]` under
`re.IGNORECASE`). -/
def isOptLetterCI (c : Char) : Bool :=
  isOptLetter c || c == 'a' || c == 'b' || c == 'c' || c == 'd'

/-- The lookahead `(?=\n[A-D]\)|Correct:|$)` that bounds the lazy text
captures of the question/option regexes: the remaining text `cs` starts
with a newline followed by an option-letter line, or starts with the
literal `Correct:`, or `$` holds (end of string, or a final newline is
all that remains — no `re.MULTILINE` flag is set). -/
def qEnd (cs : List Char) : Bool :=
  (match cs with
   | '\n' :: c :: ')' :: _ => isOptLetter c
   | _ => false) ||
  (match cs with
   | 'C' :: 'o' :: 'r' :: 'r' :: 'e' :: 'c' :: 't' :: ':' :: _ => true
   | _ => false) ||
  cs = [] || cs = ['\n']

/-- The lazy capture `(.+?)` (with `re.DOTALL`) bounded by `qEnd`:
consume at least one character, then stop at the first position where
the lookahead holds.  `acc` holds the consumed characters reversed. -/
def lazyTakeGo (acc : List Char) : List Char → List Char
  | [] => acc.reverse
  | c :: cs => if qEnd (c :: cs) then acc.reverse else lazyTakeGo (c :: acc) cs

/-- `lazyTake cs`: the text captured by `(.+?)(?=\n[A-D]\)|Correct:|$)`
starting at `cs` (caller guarantees `cs` is nonempty). -/
def lazyTake : List Char → List Char
  | [] => []
  | c :: cs => lazyTakeGo [c] cs

/-- Substring containment (Python's `'Q:' in block` etc.). -/
def containsSub (pat : List Char) : List Char → Bool
  | [] => pat.isPrefixOf ([] : List Char)
  | s :: rest => pat.isPrefixOf (s :: rest) || containsSub pat rest

/-- The suffix following the first (leftmost) occurrence of `pat`. -/
def suffixAfter (pat : List Char) : List Char → Option (List Char)
  | [] => none
  | s :: rest =>
    if pat.isPrefixOf (s :: rest) then some ((s :: rest).drop pat.length)
    else suffixAfter pat rest

/-- Hand-compiled `re.search(pat + r'\s*(.+?)(?=\n[A-D]\)|Correct:|$)',
block, re.DOTALL)` for a literal marker `pat` (`Q:` or `A)`…`D)`), used
for both the question text and the option texts.  The regex engine takes
the leftmost occurrence of the marker; `\s*` is greedy; `(.+?)` is lazy
and needs at least one character.  A match attempt at an occurrence only
fails when nothing at all follows the marker (then no later occurrence
can exist, so the whole search returns `None`); when everything that
follows is whitespace, `\s*` backtracks by one and the capture is the
final whitespace character. -/
def extractAfter (pat : List Char) (b : List Char) : Option (List Char) :=
  match suffixAfter pat b with
  | none => none
  | some rest =>
    match rest with
    | [] => none
    | _ :: _ =>
      match rest.dropWhile isWS with
      | [] =>
        match rest.reverse with
        | [] => none
        | c :: _ => some [c]
      | r :: rs => some (lazyTake (r :: rs))

/-- The lookahead `(?=Q:|\d+\.)` of the block-splitting regex: the text
after a newline starts with `Q:` or with one or more digits followed by
a dot. -/
def isBlockStart (cs : List Char) : Bool :=
  (match cs with
   | 'Q' :: ':' :: _ => true
   | _ => false) ||
  (let ds := cs.takeWhile Char.isDigit
   !ds.isEmpty &&
     (match cs.drop ds.length with
      | '.' :: _ => true
      | _ => false))

/-- `re.split(r'\n(?=Q:|\d+\.)', s)`: cut at every newline that is
followed by a block start, consuming the newline.  `acc` holds the
current block reversed. -/
def splitBlocksGo : List Char → List Char → List (List Char)
  | [], acc => [acc.reverse]
  | c :: rest, acc =>
    if c = '\n' ∧ isBlockStart rest = true then acc.reverse :: splitBlocksGo rest []
    else splitBlocksGo rest (c :: acc)

/-- Split a (stripped) completion into question blocks. -/
def splitBlocks (s : List Char) : List (List Char) := splitBlocksGo s []

/-- The alternation `(True|False)` under `re.IGNORECASE` at position
`r`: return the actually matched characters (`True` is tried first). -/
def tryTF (r : List Char) : Option (List Char) :=
  if ciIsPrefix ['t', 'r', 'u', 'e'] r then some (r.take 4)
  else if ciIsPrefix ['f', 'a', 'l', 's', 'e'] r then some (r.take 5)
  else none

/-- `re.search(r'Correct:\s*(True|False)', block, re.IGNORECASE)`: scan
start positions left to right; where `Correct:` matches
case-insensitively, consume the (maximal) whitespace run and try the
alternation; on failure resume the scan one position further (a shorter
`\s*` cannot help since a whitespace character starts neither word). -/
def findCorrectTF : List Char → Option (List Char)
  | [] => none
  | c :: rest =>
    if ciIsPrefix correctPat (c :: rest) = true then
      match tryTF (((c :: rest).drop 8).dropWhile isWS) with
      | some g => some g
      | none => findCorrectTF rest
    else findCorrectTF rest

/-- `re.search(r'Correct:\s*([A-D])', block, re.IGNORECASE)`: as above
with a single-letter class in place of the alternation; returns the raw
matched letter (`group(1)`). -/
def findCorrectLetter : List Char → Option Char
  | [] => none
  | c :: rest =>
    if ciIsPrefix correctPat (c :: rest) = true then
      match ((c :: rest).drop 8).dropWhile isWS with
      | l :: _ => if isOptLetterCI l then some l else findCorrectLetter rest
      | [] => findCorrectLetter rest
    else findCorrectLetter rest

/-- The `letter_to_index` dictionary; `none` models the `KeyError` that
the surrounding `try`/`except` of the parser would swallow. -/
def letter_to_index (c : Char) : Option Nat :=
  if c = 'A' then some 0
  else if c = 'B' then some 1
  else if c = 'C' then some 2
  else if c = 'D' then some 3
  else none

/-- Python `str.capitalize()`: first character uppercased, the rest
lowercased. -/
def pyCapitalize : List Char → List Char
  | [] => []
  | c :: rest => c.toUpper :: rest.map Char.toLower

/-- One parsed question record (the dict appended by
`parse_quiz_response`): keys `question`, `options`, `correct_answer`,
`type`.  `options` is `none` for the Python value `None`. -/
structure QuizQuestion where
  question : String
  options : Option (List String)
  correct_answer : String
  type : String
deriving DecidableEq, Repr

/-- The option texts collected by the parser's `for letter in
['A','B','C','D']` loop: for each letter in order, search
`{letter}\)\s*(.+?)(?=\n[A-D]\)|Correct:|$)` and append the stripped
capture when the search succeeds. -/
def mcqOptions (b : List Char) : List String :=
  (['A', 'B', 'C', 'D'].filterMap fun l => extractAfter [l, ')'] b).map
    fun g => String.mk (stripChars g)

/-- The multiple-choice branch of the parser's per-block body: needs a
resolved correct letter and exactly 4 extracted options; the letter is
uppercased and mapped through `letter_to_index` to select
`correct_answer` from the options. -/
def parseMCQ (question_text : String) (b : List Char) : Option QuizQuestion :=
  match findCorrectLetter b with
  | none => none
  | some c =>
    if (mcqOptions b).length = 4 then
      match letter_to_index (upChar c) with
      | some idx =>
        some ⟨question_text, some (mcqOptions b), (mcqOptions b).getD idx "", "mcq"⟩
      | none => none
    else none

/-- The true/false branch: needs a case-insensitive `Correct: True|False`
line; the matched word is capitalized. -/
def parseTF (question_text : String) (b : List Char) : Option QuizQuestion :=
  match findCorrectTF b with
  | some g => some ⟨question_text, none, String.mk (pyCapitalize g), "true_false"⟩
  | none => none

/-- `re.search(r'[A-D]\)', block)` succeeds, i.e. the block contains an
option letter immediately followed by a closing parenthesis (the match
never spans a line break, so this holds exactly when some line of the
block contains the option-letter pattern). -/
def hasOptionPattern (b : List Char) : Bool :=
  containsSub ['A', ')'] b || containsSub ['B', ')'] b ||
    containsSub ['C', ')'] b || containsSub ['D', ')'] b

/-- The parser's per-block body: skip blocks that strip to nothing or
lack a `Q:` marker; extract the question text; branch on
`re.search(r'[A-D]\)', block)`.  A skipped block yields `none`. -/
def parseBlock (b : List Char) : Option QuizQuestion :=
  if (stripChars b).isEmpty || !containsSub ['Q', ':'] b then none
  else
    match extractAfter ['Q', ':'] b with
    | none => none
    | some qraw =>
      if hasOptionPattern b then parseMCQ (String.mk (stripChars qraw)) b
      else parseTF (String.mk (stripChars qraw)) b

/-- `parse_quiz_response(quiz_text, question_type)` from
`ai_services.py`: strip, split into blocks, parse each block, keep the
records.  The body of the Python function never reads `question_type`. -/
def parse_quiz_response (quiz_text : String) (question_type : String) : List QuizQuestion :=
  (splitBlocks (stripChars quiz_text.data)).filterMap parseBlock

/-! ## The validator -/

/-- The body of the validator's per-record loop: empty `question` or
`correct_answer` fails; a record of type `mcq` additionally needs a
truthy `options` list of length 4 (Python's `not q.get("options") or
len(q["options"]) != 4`). -/
def recordCheck (q : QuizQuestion) : Bool :=
  !(q.question == "" || q.correct_answer == "") &&
    (if q.type = "mcq" then
       match q.options with
       | none => false
       | some opts => !opts.isEmpty && opts.length == 4
     else true)

/-- `validate_quiz_questions(questions, min_questions=3)` from
`ai_services.py`. -/
def validate_quiz_questions (questions : List QuizQuestion)
    (min_questions : Nat := 3) : Bool :=
  if questions.length < min_questions then false
  else questions.all recordCheck

/-! ## Prompt builder, model client, and retry controller -/

/-- The prompt f-string of `generate_quiz` for `question_type == "mcq"`. -/
def mcqPrompt (text : String) (num_questions : Nat) : String :=
  "Generate exactly " ++ toString num_questions ++
    " multiple-choice questions from this text.\n\nFormat EXACTLY like this for each question:\nQ: [Clear question here]\nA) [First option]\nB) [Second option]\nC) [Third option]\nD) [Fourth option]\nCorrect: [A/B/C/D]\n\nText to generate questions from:\n" ++
    text

/-- The prompt f-string of `generate_quiz` for
`question_type == "true_false"`. -/
def tfPrompt (text : String) (num_questions : Nat) : String :=
  "Generate exactly " ++ toString num_questions ++
    " true/false questions from this text.\n\nFormat EXACTLY like this for each question:\nQ: [Statement here]\nCorrect: [True/False]\n\nText to generate questions from:\n" ++
    text

/-- The prompt f-string of `generate_quiz` for the `mixed` (default)
branch: `num_questions // 2` MCQs and the rest true/false. -/
def mixedPrompt (text : String) (num_questions : Nat) : String :=
  "Generate " ++ toString (num_questions / 2) ++
    " multiple-choice questions and " ++
    toString (num_questions - num_questions / 2) ++
    " true/false questions from this text.\n\nFor MCQ questions, format EXACTLY like this:\nQ: [Clear question here]\nA) [First option]\nB) [Second option]\nC) [Third option]\nD) [Fourth option]\nCorrect: [A/B/C/D]\n\nFor True/False questions, format EXACTLY like this:\nQ: [Statement here]\nCorrect: [True/False]\n\nText to generate questions from:\n" ++
    text

/-- The prompt `generate_quiz` sends for a given `question_type`. -/
def buildQuizPrompt (text : String) (num_questions : Nat)
    (question_type : String) : String :=
  if question_type = "mcq" then mcqPrompt text num_questions
  else if question_type = "true_false" then tfPrompt text num_questions
  else mixedPrompt text num_questions

/-- `generate_quiz(text, num_questions, question_type)` from
`ai_services.py`, with the external Gemini client modelled as an oracle
from (call index, prompt) to either a completion or a raised error
message.  A client failure is caught and re-raised as
`Exception("Quiz generation failed: " + str(e))`. -/
def generate_quiz (oracle : Nat → String → Except String String)
    (callIdx : Nat) (text : String) (num_questions : Nat)
    (question_type : String) : Except String String :=
  match oracle callIdx (buildQuizPrompt text num_questions question_type) with
  | Except.ok s => Except.ok s
  | Except.error e => Except.error ("Quiz generation failed: " ++ e)

/-- A raised Python error: either an ordinary `Exception` with a message
or the `UnboundLocalError` raised when a never-assigned local variable
(named by the string) is read. -/
inductive PyError where
  | exc : String → PyError
  | nameError : String → PyError
deriving DecidableEq, Repr

/-- The loop of `regenerate_if_needed`: `remaining` attempts left, `k`
model-client calls made so far, `last` the `questions` local of the
previous iteration (`none` before the first iteration).  On success the
result also carries the total number of model-client calls (`k`
instrumentation; the Python function returns only the records).  A
raised error from `generate_quiz` propagates; falling out of the loop
with `last = none` is the Python `UnboundLocalError` on `questions`. -/
def regenAttempts (oracle : Nat → String → Except String String)
    (text : String) (num_questions : Nat) (question_type : String) :
    Nat → Nat → Option (List QuizQuestion) →
    Except PyError (List QuizQuestion × Nat)
  | 0, k, last =>
    match last with
    | some qs => Except.ok (qs, k)
    | none => Except.error (PyError.nameError "questions")
  | r + 1, k, _ =>
    match generate_quiz oracle k text num_questions question_type with
    | Except.error e => Except.error (PyError.exc e)
    | Except.ok quiz_text =>
      let questions := parse_quiz_response quiz_text question_type
      if validate_quiz_questions questions (max 1 (num_questions - 2)) then
        Except.ok (questions, k + 1)
      else
        regenAttempts oracle text num_questions question_type r (k + 1)
          (some questions)

/-- `regenerate_if_needed(text, num_questions, question_type,
max_attempts=2)` from `ai_services.py` (the relaxed threshold
`max(1, num_questions - 2)` is applied inside the loop; Python's
`num_questions - 2` on possibly-small counts agrees with truncated
subtraction under the outer `max(1, ·)`). -/
def regenerate_if_needed (oracle : Nat → String → Except String String)
    (text : String) (num_questions : Nat) (question_type : String)
    (max_attempts : Nat := 2) : Except PyError (List QuizQuestion × Nat) :=
  regenAttempts oracle text num_questions question_type max_attempts 0 none

/-! ## Lemmas about the validator -/

/-- The per-record check fails exactly on an empty question, an empty
correct answer, or an `mcq` record whose option count (0 when `options`
is `None`) is not 4. -/
theorem recordCheck_false_iff (q : QuizQuestion) :
    recordCheck q = false ↔
      q.question = "" ∨ q.correct_answer = "" ∨
        (q.type = "mcq" ∧ (q.options.getD []).length ≠ 4) := by
  rcases q with ⟨qq, opts, ca, ty⟩
  by_cases hty : ty = "mcq"
  · cases opts with
    | none => simp [recordCheck, hty]
    | some o =>
      by_cases ho : o = []
      · subst ho; simp [recordCheck, hty]
      · simp [recordCheck, hty, ho, List.isEmpty_iff]
        tauto
  · simp [recordCheck, hty]
    tauto

/-- Claim C4: `validate_quiz_questions` returns `false` exactly when the
record count is below `min_questions`, or some record has an empty
`question` or `correct_answer`, or some record of type `mcq` has an
option count (0 for an absent list) different from 4; records of any
other type are exempt from the option-count check.  (The embedding is a
pure function, so the source's absence of side effects is inherent.) -/
theorem validate_quiz_questions_false_iff (qs : List QuizQuestion) (m : Nat) :
    validate_quiz_questions qs m = false ↔
      qs.length < m ∨ ∃ q ∈ qs, q.question = "" ∨ q.correct_answer = "" ∨
        (q.type = "mcq" ∧ (q.options.getD []).length ≠ 4) := by
  unfold validate_quiz_questions
  by_cases hlen : qs.length < m
  · simp [hlen]
  · simp only [hlen, if_false, false_or]
    simp only [List.all_eq_false, Bool.not_eq_true, recordCheck_false_iff]

/-! ## Lemmas about the parser -/

theorem letter_to_index_lt4 {c : Char} {i : Nat}
    (h : letter_to_index c = some i) : i < 4 := by
  unfold letter_to_index at h
  split_ifs at h <;> simp_all <;> omega

theorem getD_mem {l : List String} {i : Nat} (h : i < l.length) :
    l.getD i "" ∈ l := by
  induction l generalizing i with
  | nil => simp at h
  | cons a t ih =>
    cases i with
    | zero => simp [List.getD]
    | succ j =>
      have hm : t.getD j "" ∈ t := ih (by simpa using h)
      simpa [List.getD] using Or.inr hm

theorem ciIsPrefix4_elim {p1 p2 p3 p4 : Char} {r : List Char}
    (h : ciIsPrefix [p1, p2, p3, p4] r = true) :
    ∃ a b c d rest, r = a :: b :: c :: d :: rest ∧
      (a = p1 ∨ a = upChar p1) ∧ (b = p2 ∨ b = upChar p2) ∧
      (c = p3 ∨ c = upChar p3) ∧ (d = p4 ∨ d = upChar p4) := by
  match r with
  | [] => exact absurd h (by simp [ciIsPrefix])
  | [a] => exact absurd h (by simp [ciIsPrefix])
  | [a, b] => exact absurd h (by simp [ciIsPrefix])
  | [a, b, c] => exact absurd h (by simp [ciIsPrefix])
  | a :: b :: c :: d :: rest =>
    simp only [ciIsPrefix, ciMatch, Bool.and_eq_true, Bool.or_eq_true,
      beq_iff_eq] at h
    exact ⟨a, b, c, d, rest, rfl, h.1, h.2.1, h.2.2.1, h.2.2.2.1⟩

theorem ciIsPrefix5_elim {p1 p2 p3 p4 p5 : Char} {r : List Char}
    (h : ciIsPrefix [p1, p2, p3, p4, p5] r = true) :
    ∃ a b c d e rest, r = a :: b :: c :: d :: e :: rest ∧
      (a = p1 ∨ a = upChar p1) ∧ (b = p2 ∨ b = upChar p2) ∧
      (c = p3 ∨ c = upChar p3) ∧ (d = p4 ∨ d = upChar p4) ∧
      (e = p5 ∨ e = upChar p5) := by
  match r with
  | [] => exact absurd h (by simp [ciIsPrefix])
  | [a] => exact absurd h (by simp [ciIsPrefix])
  | [a, b] => exact absurd h (by simp [ciIsPrefix])
  | [a, b, c] => exact absurd h (by simp [ciIsPrefix])
  | [a, b, c, d] => exact absurd h (by simp [ciIsPrefix])
  | a :: b :: c :: d :: e :: rest =>
    simp only [ciIsPrefix, ciMatch, Bool.and_eq_true, Bool.or_eq_true,
      beq_iff_eq] at h
    exact ⟨a, b, c, d, e, rest, rfl, h.1, h.2.1, h.2.2.1, h.2.2.2.1, h.2.2.2.2.1⟩

/-- Whatever `(True|False)` matched (in any capitalization), Python's
`.capitalize()` turns it into exactly `"True"` or `"False"`. -/
theorem tryTF_capitalize {r g : List Char} (h : tryTF r = some g) :
    String.mk (pyCapitalize g) = "True" ∨ String.mk (pyCapitalize g) = "False" := by
  unfold tryTF at h
  by_cases h1 : ciIsPrefix ['t', 'r', 'u', 'e'] r = true
  · rw [if_pos h1] at h
    obtain ⟨a, b, c, d, rest, rfl, ha, hb, hc, hd⟩ := ciIsPrefix4_elim h1
    injection h with h
    rw [show (a :: b :: c :: d :: rest).take 4 = [a, b, c, d] from rfl] at h
    subst h
    rcases ha with rfl | rfl <;> rcases hb with rfl | rfl <;>
      rcases hc with rfl | rfl <;> rcases hd with rfl | rfl <;>
      exact Or.inl (by decide)
  · rw [if_neg h1] at h
    by_cases h2 : ciIsPrefix ['f', 'a', 'l', 's', 'e'] r = true
    · rw [if_pos h2] at h
      obtain ⟨a, b, c, d, e, rest, rfl, ha, hb, hc, hd, he⟩ := ciIsPrefix5_elim h2
      injection h with h
      rw [show (a :: b :: c :: d :: e :: rest).take 5 = [a, b, c, d, e] from rfl] at h
      subst h
      rcases ha with rfl | rfl <;> rcases hb with rfl | rfl <;>
        rcases hc with rfl | rfl <;> rcases hd with rfl | rfl <;>
        rcases he with rfl | rfl <;>
        exact Or.inr (by decide)
    · rw [if_neg h2] at h
      exact absurd h (by simp)

theorem findCorrectTF_capitalize {s g : List Char}
    (h : findCorrectTF s = some g) :
    String.mk (pyCapitalize g) = "True" ∨ String.mk (pyCapitalize g) = "False" := by
  induction s with
  | nil => simp [findCorrectTF] at h
  | cons c rest ih =>
    unfold findCorrectTF at h
    by_cases hp : ciIsPrefix correctPat (c :: rest) = true
    · rw [if_pos hp] at h
      cases htf : tryTF (((c :: rest).drop 8).dropWhile isWS) with
      | some g2 =>
        rw [htf] at h
        injection h with h
        subst h
        exact tryTF_capitalize htf
      | none =>
        rw [htf] at h
        exact ih h
    · rw [if_neg hp] at h
      exact ih h

theorem parseTF_eq_some {qt : String} {b : List Char} {q : QuizQuestion}
    (h : parseTF qt b = some q) :
    q.type = "true_false" ∧ q.options = none ∧
      (q.correct_answer = "True" ∨ q.correct_answer = "False") := by
  unfold parseTF at h
  cases hf : findCorrectTF b with
  | none => rw [hf] at h; exact absurd h (by simp)
  | some g =>
    rw [hf] at h
    injection h with h
    subst h
    exact ⟨rfl, rfl, findCorrectTF_capitalize hf⟩

theorem parseMCQ_eq_some {qt : String} {b : List Char} {q : QuizQuestion}
    (h : parseMCQ qt b = some q) :
    q.type = "mcq" ∧
      ∃ opts, q.options = some opts ∧ opts.length = 4 ∧ q.correct_answer ∈ opts := by
  unfold parseMCQ at h
  split at h
  · exact absurd h (by simp)
  · split at h
    · rename_i hlen
      split at h
      · rename_i idx hi
        injection h with h
        subst h
        refine ⟨rfl, mcqOptions b, rfl, hlen, ?_⟩
        have hidx : idx < (mcqOptions b).length := by
          rw [hlen]; exact letter_to_index_lt4 hi
        exact getD_mem hidx
      · exact absurd h (by simp)
    · exact absurd h (by simp)

/-- Every record produced by the per-block parser comes from exactly one
of the two branches, selected by `re.search(r'[A-D]\)', block)`. -/
theorem parseBlock_eq_some {b : List Char} {q : QuizQuestion}
    (h : parseBlock b = some q) :
    ∃ qt : String,
      (hasOptionPattern b = true ∧ parseMCQ qt b = some q) ∨
        (hasOptionPattern b = false ∧ parseTF qt b = some q) := by
  unfold parseBlock at h
  split at h
  · exact absurd h (by simp)
  · split at h
    · exact absurd h (by simp)
    · split at h
      · rename_i hopt
        exact ⟨_, Or.inl ⟨hopt, h⟩⟩
      · rename_i hopt
        exact ⟨_, Or.inr ⟨by simpa using hopt, h⟩⟩

/-! ## Claims about the parser -/

/-- Claim C1: every record produced by `parse_quiz_response` satisfies
the data-model invariants — an `mcq` record has exactly 4 options with
`correct_answer` equal (by string equality) to one of them, and a
`true_false` record has no options and `correct_answer` exactly
`"True"` or `"False"`, for every input completion string. -/
theorem parse_quiz_response_record_invariants
    (quiz_text question_type : String) (q : QuizQuestion)
    (hq : q ∈ parse_quiz_response quiz_text question_type) :
    (q.type = "mcq" ∨ q.type = "true_false") ∧
      (q.type = "mcq" →
        ∃ opts, q.options = some opts ∧ opts.length = 4 ∧ q.correct_answer ∈ opts) ∧
      (q.type = "true_false" →
        q.options = none ∧ (q.correct_answer = "True" ∨ q.correct_answer = "False")) := by
  obtain ⟨b, hb, hpb⟩ := List.mem_filterMap.mp hq
  obtain ⟨qt, hcase⟩ := parseBlock_eq_some hpb
  rcases hcase with ⟨hopt, hm⟩ | ⟨hopt, hm⟩
  · obtain ⟨hty, opts, ho, hlen, hmem⟩ := parseMCQ_eq_some hm
    refine ⟨Or.inl hty, fun _ => ⟨opts, ho, hlen, hmem⟩, fun hty2 => ?_⟩
    rw [hty] at hty2
    exact absurd hty2 (by decide)
  · obtain ⟨hty, ho, hca⟩ := parseTF_eq_some hm
    refine ⟨Or.inr hty, fun hty2 => ?_, fun _ => ⟨ho, hca⟩⟩
    rw [hty] at hty2
    exact absurd hty2 (by decide)

/-- The completion text of the spec's concrete scenario (one true/false
question followed by one multiple-choice question). -/
def sampleCompletion : String :=
  "Q: The sky is blue.\nCorrect: True\nQ: What is 2+2?\nA) 3\nB) 4\nC) 5\nD) 6\nCorrect: B"

/-- The MCQ record the parser produces from `sampleCompletion`. -/
def mcqSample : QuizQuestion :=
  ⟨"What is 2+2?", some ["3", "4", "5", "6"], "4", "mcq"⟩

/-- Witness for C1 at the spec's concrete scenario. -/
theorem parse_quiz_response_record_invariants_witness :
    mcqSample ∈ parse_quiz_response sampleCompletion "mixed" ∧
      ∃ opts, mcqSample.options = some opts ∧ opts.length = 4 ∧
        mcqSample.correct_answer ∈ opts := by
  have hmem : mcqSample ∈ parse_quiz_response sampleCompletion "mixed" := by decide
  exact ⟨hmem,
    (parse_quiz_response_record_invariants sampleCompletion "mixed" mcqSample hmem).2.1 rfl⟩

/-- Claim C9: `parse_quiz_response` never reads its `question_type`
argument, so its output is identical for any two values of it. -/
theorem parse_quiz_response_ignores_question_type
    (quiz_text t1 t2 : String) :
    parse_quiz_response quiz_text t1 = parse_quiz_response quiz_text t2 := rfl

/-- Claim C8: a block (of the ones `parse_quiz_response` splits its
input into) that yields a record is treated as multiple-choice exactly
when `re.search(r'[A-D]\)', block)` finds an option-letter pattern in
some line of the block, and as true/false otherwise; the record's place
in the parse output witnesses the treatment. -/
theorem parse_block_mcq_iff_option_pattern
    (quiz_text question_type : String) (b : List Char) (q : QuizQuestion)
    (hb : b ∈ splitBlocks (stripChars quiz_text.data))
    (hq : parseBlock b = some q) :
    q ∈ parse_quiz_response quiz_text question_type ∧
      (q.type = "mcq" ↔ hasOptionPattern b = true) ∧
      (q.type = "true_false" ↔ hasOptionPattern b = false) := by
  refine ⟨List.mem_filterMap.mpr ⟨b, hb, hq⟩, ?_⟩
  obtain ⟨qt, hcase⟩ := parseBlock_eq_some hq
  rcases hcase with ⟨hopt, hm⟩ | ⟨hopt, hm⟩
  · have hty := (parseMCQ_eq_some hm).1
    refine ⟨⟨fun _ => hopt, fun _ => hty⟩, ⟨fun h2 => ?_, fun h2 => ?_⟩⟩
    · rw [hty] at h2; exact absurd h2 (by decide)
    · rw [hopt] at h2; exact absurd h2 (by decide)
  · have hty := (parseTF_eq_some hm).1
    refine ⟨⟨fun h2 => ?_, fun h2 => ?_⟩, ⟨fun _ => hopt, fun _ => hty⟩⟩
    · rw [hty] at h2; exact absurd h2 (by decide)
    · rw [hopt] at h2; exact absurd h2 (by decide)

/-- The multiple-choice block of `sampleCompletion`, as split by the
parser. -/
def mcqBlock : List Char :=
  ("Q: What is 2+2?\nA) 3\nB) 4\nC) 5\nD) 6\nCorrect: B").data

/-- Witness for C8 at the spec's concrete scenario. -/
theorem parse_block_mcq_iff_option_pattern_witness :
    mcqBlock ∈ splitBlocks (stripChars sampleCompletion.data) ∧
      parseBlock mcqBlock = some mcqSample ∧
      mcqSample ∈ parse_quiz_response sampleCompletion "mixed" ∧
      (mcqSample.type = "mcq" ↔ hasOptionPattern mcqBlock = true) := by
  have hb : mcqBlock ∈ splitBlocks (stripChars sampleCompletion.data) := by decide
  have hq : parseBlock mcqBlock = some mcqSample := by decide
  have h := parse_block_mcq_iff_option_pattern sampleCompletion "mixed" mcqBlock mcqSample hb hq
  exact ⟨hb, hq, h.1, h.2.1⟩

/-- An unresolvable multiple-choice block never yields a record. -/
theorem parseMCQ_unresolved {qt : String} {b : List Char}
    (hbad : findCorrectLetter b = none ∨ (mcqOptions b).length ≠ 4) :
    parseMCQ qt b = none := by
  unfold parseMCQ
  split
  · rfl
  · rename_i c hl
    rcases hbad with hbad | hbad
    · rw [hl] at hbad; exact absurd hbad (by simp)
    · rw [if_neg hbad]

/-- Claim C6: a block classified as multiple-choice whose correct-letter
reference cannot be resolved (no case-insensitive `Correct: [A-D]`
match, or a number of extracted options different from 4) contributes
zero records; the parser (a total function, so it cannot raise)
processes blocks independently, so the surrounding blocks' records are
still produced. -/
theorem parse_skips_unresolvable_mcq_blocks
    (quiz_text question_type : String) (b : List Char)
    (bs1 bs2 : List (List Char))
    (hopt : hasOptionPattern b = true)
    (hbad : findCorrectLetter b = none ∨ (mcqOptions b).length ≠ 4) :
    parseBlock b = none ∧
      (bs1 ++ b :: bs2).filterMap parseBlock =
        bs1.filterMap parseBlock ++ bs2.filterMap parseBlock ∧
      parse_quiz_response quiz_text question_type =
        (splitBlocks (stripChars quiz_text.data)).filterMap parseBlock := by
  have hnone : parseBlock b = none := by
    unfold parseBlock
    split
    · rfl
    · split
      · rfl
      · exact parseMCQ_unresolved hbad
  refine ⟨hnone, ?_, rfl⟩
  simp [List.filterMap_append, List.filterMap_cons, hnone]

/-- A completion whose first block has a `Correct: E` line (an
unresolvable letter) among well-formed 4-option text, followed by a
well-formed true/false block. -/
def badCompletion : String :=
  "Q: What?\nA) 1\nB) 2\nC) 3\nD) 4\nCorrect: E\nQ: Sky.\nCorrect: True"

/-- The first (unresolvable) block of `badCompletion`. -/
def badBlock : List Char :=
  ("Q: What?\nA) 1\nB) 2\nC) 3\nD) 4\nCorrect: E").data

/-- Witness for C6: the `Correct: E` block yields zero records and the
following true/false block still parses. -/
theorem parse_skips_unresolvable_mcq_blocks_witness :
    hasOptionPattern badBlock = true ∧
      findCorrectLetter badBlock = none ∧
      parseBlock badBlock = none ∧
      parse_quiz_response badCompletion "mixed" =
        [⟨"Sky.", none, "True", "true_false"⟩] := by
  refine ⟨by decide, by decide, ?_, by decide⟩
  exact (parse_skips_unresolvable_mcq_blocks badCompletion "mixed" badBlock [] []
    (by decide) (Or.inl (by decide))).1

/-! ## Claims about the retry controller -/

/-- Claim C2: if the first completion parses to a record set that
validates against `max(1, num_questions - 2)`, the retry loop returns
after exactly one model-client call with exactly that first parse. -/
theorem regenerate_first_attempt_valid
    (oracle : Nat → String → Except String String)
    (text : String) (num_questions : Nat) (question_type : String)
    (max_attempts : Nat) (s : String)
    (hma : 1 ≤ max_attempts)
    (h0 : oracle 0 (buildQuizPrompt text num_questions question_type) = Except.ok s)
    (hv : validate_quiz_questions (parse_quiz_response s question_type)
        (max 1 (num_questions - 2)) = true) :
    regenerate_if_needed oracle text num_questions question_type max_attempts =
      Except.ok (parse_quiz_response s question_type, 1) := by
  obtain ⟨r, rfl⟩ : ∃ r, max_attempts = r + 1 := ⟨max_attempts - 1, by omega⟩
  unfold regenerate_if_needed regenAttempts generate_quiz
  rw [h0]
  simp [hv]

/-- Witness for C2: a constant oracle returning the spec's sample
completion validates on the first attempt (threshold `max 1 (3-2) = 1`),
so only one call is consumed. -/
theorem regenerate_first_attempt_valid_witness :
    validate_quiz_questions (parse_quiz_response sampleCompletion "mixed")
        (max 1 (3 - 2)) = true ∧
      regenerate_if_needed (fun _ _ => Except.ok sampleCompletion) "some text" 3 "mixed" 2 =
        Except.ok (parse_quiz_response sampleCompletion "mixed", 1) := by
  refine ⟨by decide, ?_⟩
  exact regenerate_first_attempt_valid (fun _ _ => Except.ok sampleCompletion)
    "some text" 3 "mixed" 2 sampleCompletion (by omega) rfl (by decide)

/-- Exhausting the retry budget with non-validating parses returns the
last attempt's parse, having consumed one model call per attempt. -/
theorem regenAttempts_all_invalid
    (oracle : Nat → String → Except String String)
    (text : String) (num_questions : Nat) (question_type : String)
    (c : Nat → String) :
    ∀ (r k : Nat) (last : Option (List QuizQuestion)),
      (∀ i, i < r + 1 →
        oracle (k + i) (buildQuizPrompt text num_questions question_type) =
          Except.ok (c (k + i))) →
      (∀ i, i < r + 1 →
        validate_quiz_questions (parse_quiz_response (c (k + i)) question_type)
          (max 1 (num_questions - 2)) = false) →
      regenAttempts oracle text num_questions question_type (r + 1) k last =
        Except.ok (parse_quiz_response (c (k + r)) question_type, k + r + 1) := by
  intro r
  induction r with
  | zero =>
    intro k last hok hbad
    have h0 := hok 0 (by omega)
    have hb0 := hbad 0 (by omega)
    rw [Nat.add_zero] at h0 hb0
    unfold regenAttempts generate_quiz
    rw [h0]
    simp [hb0, regenAttempts]
  | succ r ih =>
    intro k last hok hbad
    have h0 := hok 0 (by omega)
    have hb0 := hbad 0 (by omega)
    rw [Nat.add_zero] at h0 hb0
    have hok2 : ∀ i, i < r + 1 →
        oracle (k + 1 + i) (buildQuizPrompt text num_questions question_type) =
          Except.ok (c (k + 1 + i)) := by
      intro i hi
      have h := hok (i + 1) (by omega)
      rwa [show k + (i + 1) = k + 1 + i from by omega] at h
    have hbad2 : ∀ i, i < r + 1 →
        validate_quiz_questions (parse_quiz_response (c (k + 1 + i)) question_type)
          (max 1 (num_questions - 2)) = false := by
      intro i hi
      have h := hbad (i + 1) (by omega)
      rwa [show k + (i + 1) = k + 1 + i from by omega] at h
    have ih2 := ih (k + 1)
      (some (parse_quiz_response (c k) question_type)) hok2 hbad2
    conv_lhs => rw [regenAttempts]
    unfold generate_quiz
    rw [h0]
    simp only [hb0, if_false, Bool.false_eq_true]
    rw [ih2]
    have e1 : k + 1 + r = k + (r + 1) := by omega
    rw [e1]

/-- Claim C3: if no attempt's parse validates within `max_attempts ≥ 1`
attempts and no model call fails, the retry loop returns the records
parsed from the last attempt's completion — possibly invalid — without
raising. -/
theorem regenerate_exhausted_returns_last
    (oracle : Nat → String → Except String String)
    (text : String) (num_questions : Nat) (question_type : String)
    (max_attempts : Nat) (c : Nat → String)
    (hma : 1 ≤ max_attempts)
    (hok : ∀ k, k < max_attempts →
      oracle k (buildQuizPrompt text num_questions question_type) = Except.ok (c k))
    (hbad : ∀ k, k < max_attempts →
      validate_quiz_questions (parse_quiz_response (c k) question_type)
        (max 1 (num_questions - 2)) = false) :
    regenerate_if_needed oracle text num_questions question_type max_attempts =
      Except.ok (parse_quiz_response (c (max_attempts - 1)) question_type, max_attempts) := by
  obtain ⟨r, rfl⟩ : ∃ r, max_attempts = r + 1 := ⟨max_attempts - 1, by omega⟩
  have h := regenAttempts_all_invalid oracle text num_questions question_type c r 0 none
    (fun i hi => by simpa using hok i (by omega))
    (fun i hi => by simpa using hbad i (by omega))
  simpa using h

/-- Witness for C3: an oracle that always returns the empty completion
never validates (threshold `max 1 (5-2) = 3`), and after both attempts
the empty parse of the second attempt is returned. -/
theorem regenerate_exhausted_returns_last_witness :
    validate_quiz_questions (parse_quiz_response "" "mixed") (max 1 (5 - 2)) = false ∧
      regenerate_if_needed (fun _ _ => Except.ok "") "txt" 5 "mixed" 2 =
        Except.ok (parse_quiz_response "" "mixed", 2) := by
  refine ⟨by decide, ?_⟩
  exact regenerate_exhausted_returns_last (fun _ _ => Except.ok "") "txt" 5 "mixed" 2
    (fun _ => "") (by omega) (fun k hk => rfl)
    (fun k hk => by
      show validate_quiz_questions (parse_quiz_response "" "mixed") (max 1 (5 - 2)) = false
      decide)

/-- A model-client failure at call `j` (after `j` non-validating
successes) aborts the loop: the wrapped error raised by `generate_quiz`
comes back unmodified, and the oracle is never consulted past `j`. -/
theorem regenAttempts_error_propagates
    (oracle : Nat → String → Except String String)
    (text : String) (num_questions : Nat) (question_type : String)
    (c : Nat → String) (e : String) :
    ∀ (j r k : Nat) (last : Option (List QuizQuestion)),
      j < r →
      (∀ i, i < j →
        oracle (k + i) (buildQuizPrompt text num_questions question_type) =
          Except.ok (c (k + i))) →
      (∀ i, i < j →
        validate_quiz_questions (parse_quiz_response (c (k + i)) question_type)
          (max 1 (num_questions - 2)) = false) →
      oracle (k + j) (buildQuizPrompt text num_questions question_type) =
        Except.error e →
      regenAttempts oracle text num_questions question_type r k last =
        Except.error (PyError.exc ("Quiz generation failed: " ++ e)) := by
  intro j
  induction j with
  | zero =>
    intro r k last hjr hok hbad herr
    obtain ⟨r2, rfl⟩ : ∃ r2, r = r2 + 1 := ⟨r - 1, by omega⟩
    rw [Nat.add_zero] at herr
    unfold regenAttempts generate_quiz
    rw [herr]
  | succ j ih =>
    intro r k last hjr hok hbad herr
    obtain ⟨r2, rfl⟩ : ∃ r2, r = r2 + 1 := ⟨r - 1, by omega⟩
    have h0 := hok 0 (by omega)
    have hb0 := hbad 0 (by omega)
    rw [Nat.add_zero] at h0 hb0
    have hok2 : ∀ i, i < j →
        oracle (k + 1 + i) (buildQuizPrompt text num_questions question_type) =
          Except.ok (c (k + 1 + i)) := by
      intro i hi
      have h := hok (i + 1) (by omega)
      rwa [show k + (i + 1) = k + 1 + i from by omega] at h
    have hbad2 : ∀ i, i < j →
        validate_quiz_questions (parse_quiz_response (c (k + 1 + i)) question_type)
          (max 1 (num_questions - 2)) = false := by
      intro i hi
      have h := hbad (i + 1) (by omega)
      rwa [show k + (i + 1) = k + 1 + i from by omega] at h
    have herr2 : oracle (k + 1 + j) (buildQuizPrompt text num_questions question_type) =
        Except.error e := by
      rwa [show k + (j + 1) = k + 1 + j from by omega] at herr
    conv_lhs => rw [regenAttempts]
    unfold generate_quiz
    rw [h0]
    simp only [hb0, if_false, Bool.false_eq_true]
    exact ih r2 (k + 1) (some (parse_quiz_response (c k) question_type))
      (by omega) hok2 hbad2 herr2

/-- Claim C7: when the model client fails during attempt `j` (the first
`j` attempts succeeded but did not validate), `generate_quiz` raises
`Exception("Quiz generation failed: " + e)` and `regenerate_if_needed`
propagates exactly that raised failure to its caller without catching
it, without counting it as a validation failure, and without consulting
the oracle at any later call index. -/
theorem regenerate_propagates_model_error
    (oracle : Nat → String → Except String String)
    (text : String) (num_questions : Nat) (question_type : String)
    (max_attempts : Nat) (c : Nat → String) (j : Nat) (e : String)
    (hj : j < max_attempts)
    (hok : ∀ k, k < j →
      oracle k (buildQuizPrompt text num_questions question_type) = Except.ok (c k))
    (hbad : ∀ k, k < j →
      validate_quiz_questions (parse_quiz_response (c k) question_type)
        (max 1 (num_questions - 2)) = false)
    (herr : oracle j (buildQuizPrompt text num_questions question_type) =
      Except.error e) :
    generate_quiz oracle j text num_questions question_type =
        Except.error ("Quiz generation failed: " ++ e) ∧
      regenerate_if_needed oracle text num_questions question_type max_attempts =
        Except.error (PyError.exc ("Quiz generation failed: " ++ e)) := by
  constructor
  · unfold generate_quiz
    rw [herr]
  · exact regenAttempts_error_propagates oracle text num_questions question_type c e
      j max_attempts 0 none hj
      (fun i hi => by simpa using hok i hi)
      (fun i hi => by simpa using hbad i hi)
      (by simpa using herr)

/-- Witness for C7: an oracle that fails immediately on its first call
makes `regenerate_if_needed` return the wrapped failure. -/
theorem regenerate_propagates_model_error_witness :
    generate_quiz (fun k _ => if k = 0 then Except.error "boom" else Except.ok "")
        0 "txt" 3 "mixed" = Except.error ("Quiz generation failed: " ++ "boom") ∧
      regenerate_if_needed (fun k _ => if k = 0 then Except.error "boom" else Except.ok "")
        "txt" 3 "mixed" 2 =
        Except.error (PyError.exc ("Quiz generation failed: " ++ "boom")) := by
  exact regenerate_propagates_model_error
    (fun k _ => if k = 0 then Except.error "boom" else Except.ok "")
    "txt" 3 "mixed" 2 (fun _ => "") 0 "boom" (by omega)
    (fun k hk => absurd hk (by omega)) (fun k hk => absurd hk (by omega)) rfl

/-- Claim C10: with `max_attempts = 0` the loop body never runs, so the
`return questions` after the loop reads a never-assigned local and
raises (`UnboundLocalError` on `questions`) instead of returning a
record list — the contract of returning the last attempt's records
presupposes at least one attempt. -/
theorem regenerate_zero_attempts_raises
    (oracle : Nat → String → Except String String)
    (text : String) (num_questions : Nat) (question_type : String) :
    regenerate_if_needed oracle text num_questions question_type 0 =
      Except.error (PyError.nameError "questions") := rfl

/-! ## Lemmas about the text chunker -/

theorem sjoin_append {a b : List String} (ha : a ≠ []) (hb : b ≠ []) :
    sjoin (a ++ b) = sjoin a ++ " " ++ sjoin b := by
  induction a with
  | nil => exact absurd rfl ha
  | cons x a ih =>
    cases a with
    | nil =>
      cases b with
      | nil => exact absurd rfl hb
      | cons y b => simp [sjoin]
    | cons x2 a2 =>
      have h2 : sjoin (x2 :: a2 ++ b) = sjoin (x2 :: a2) ++ " " ++ sjoin b :=
        ih (by simp)
      simp only [List.cons_append] at h2 ⊢
      rw [show sjoin (x :: x2 :: (a2 ++ b)) = x ++ " " ++ sjoin (x2 :: (a2 ++ b)) from rfl,
        h2, show sjoin (x :: x2 :: a2) = x ++ " " ++ sjoin (x2 :: a2) from rfl]
      simp [String.append_assoc]

theorem join_ne_nil_of_blocks {p : List (List String)} (hp : p ≠ [])
    (hblk : ∀ blk ∈ p, blk ≠ []) : p.flatten ≠ [] := by
  cases p with
  | nil => exact absurd rfl hp
  | cons l p =>
    have hl : l ≠ [] := hblk l (by simp)
    cases l with
    | nil => exact absurd rfl hl
    | cons x l => simp

/-- Joining a partition's blocks with spaces, block by block, is the
same as joining all the words at once (blocks being nonempty). -/
theorem sjoin_map_sjoin {p : List (List String)} (hblk : ∀ blk ∈ p, blk ≠ []) :
    sjoin (p.map sjoin) = sjoin p.flatten := by
  induction p with
  | nil => rfl
  | cons l p ih =>
    have hl : l ≠ [] := hblk l (by simp)
    by_cases hp : p = []
    · subst hp; simp [sjoin]
    · have hp2 : ∀ blk ∈ p, blk ≠ [] := fun blk hb =>
        hblk blk (List.mem_cons_of_mem _ hb)
      have hmap : p.map sjoin ≠ [] := by simpa using hp
      have hjoin : p.flatten ≠ [] := join_ne_nil_of_blocks hp hp2
      calc sjoin ((l :: p).map sjoin)
          = sjoin ([sjoin l] ++ p.map sjoin) := rfl
        _ = sjoin [sjoin l] ++ " " ++ sjoin (p.map sjoin) := sjoin_append (by simp) hmap
        _ = sjoin l ++ " " ++ sjoin p.flatten := by rw [ih hp2]; exact rfl
        _ = sjoin (l ++ p.flatten) := (sjoin_append hl hjoin).symm
        _ = sjoin (l :: p).flatten := by simp

/-- Loop invariant of `chunk_text`: starting from a nonempty current
chunk, the loop appends to `chunks` the space-joins of a partition of
`cur ++ ws` into nonempty blocks of consecutive words. -/
theorem chunkTextGo_partition (maxLength : Nat) :
    ∀ (ws cur : List String) (len : Nat) (chunks : List String), cur ≠ [] →
      ∃ p : List (List String),
        chunkTextGo maxLength ws chunks cur len = chunks ++ p.map sjoin ∧
          p.flatten = cur ++ ws ∧ ∀ blk ∈ p, blk ≠ [] := by
  intro ws
  induction ws with
  | nil =>
    intro cur len chunks hcur
    refine ⟨[cur], ?_, by simp, by simpa using hcur⟩
    cases cur with
    | nil => exact absurd rfl hcur
    | cons x cur => rfl
  | cons w ws ih =>
    intro cur len chunks hcur
    by_cases hov : len + (w.length + 1) > maxLength
    · obtain ⟨p, hp1, hp2, hp3⟩ := ih [w] (w.length + 1) (chunks ++ [sjoin cur]) (by simp)
      have hstep : chunkTextGo maxLength (w :: ws) chunks cur len =
          chunkTextGo maxLength ws (chunks ++ [sjoin cur]) [w] (w.length + 1) := by
        conv_lhs => rw [chunkTextGo]
        simp [hov]
      refine ⟨cur :: p, ?_, ?_, ?_⟩
      · rw [hstep, hp1]; simp
      · simp [hp2]
      · intro blk hb
        rcases List.mem_cons.mp hb with rfl | hb
        · exact hcur
        · exact hp3 blk hb
    · obtain ⟨p, hp1, hp2, hp3⟩ := ih (cur ++ [w]) (len + (w.length + 1)) chunks (by simp)
      have hstep : chunkTextGo maxLength (w :: ws) chunks cur len =
          chunkTextGo maxLength ws chunks (cur ++ [w]) (len + (w.length + 1)) := by
        conv_lhs => rw [chunkTextGo]
        simp [hov]
      refine ⟨p, ?_, ?_, hp3⟩
      · rw [hstep, hp1]
      · rw [hp2]; simp

/-- Claim C5, amended: whenever the input's first word `w` (if any)
satisfies `w.length + 1 ≤ max_length`, the chunks are the space-joins
of a partition of the word list into nonempty blocks of consecutive
words (so word boundaries are never split), and joining the chunks with
single spaces reconstructs the whitespace-collapsed input; later
over-long words are fine.  Without that proviso the first loop
iteration flushes the empty initial chunk (see
`chunk_text_counterexample`). -/
theorem chunk_text_reconstructs_amended (text : String) (maxLength : Nat)
    (hfirst : ∀ w ∈ (pySplit text).take 1, w.length + 1 ≤ maxLength) :
    (∃ p : List (List String), p.flatten = pySplit text ∧ (∀ blk ∈ p, blk ≠ []) ∧
        chunk_text text maxLength = p.map sjoin) ∧
      sjoin (chunk_text text maxLength) = sjoin (pySplit text) := by
  cases hws : pySplit text with
  | nil =>
    constructor
    · exact ⟨[], by simp, by simp, by simp [chunk_text, hws, chunkTextGo]⟩
    · simp [chunk_text, hws, chunkTextGo]
  | cons w ws =>
    have hw : w.length + 1 ≤ maxLength := hfirst w (by simp [hws])
    have hno : ¬ (0 + (w.length + 1) > maxLength) := by omega
    have hstep : chunk_text text maxLength =
        chunkTextGo maxLength ws [] [w] (w.length + 1) := by
      unfold chunk_text
      rw [hws]
      simp only [chunkTextGo]
      rw [if_neg hno]
      simp
    obtain ⟨p, hp1, hp2, hp3⟩ :=
      chunkTextGo_partition maxLength ws [w] (w.length + 1) [] (by simp)
    rw [List.nil_append] at hp1
    constructor
    · exact ⟨p, by rw [hp2]; rfl, hp3, by rw [hstep, hp1]⟩
    · rw [hstep, hp1, sjoin_map_sjoin hp3, hp2]
      rfl

/-- Counterexample to C5 as stated: with `max_length = 3` and the
single (over-long) word `abcdef` as input, the first loop iteration
appends `' '.join([])` — an empty chunk — so the space-joined output
is `" abcdef"` while the whitespace-collapsed input is `"abcdef"`. -/
theorem chunk_text_counterexample :
    chunk_text "abcdef" 3 = ["", "abcdef"] ∧
      sjoin (chunk_text "abcdef" 3) ≠ sjoin (pySplit "abcdef") ∧
      sjoin (chunk_text "abcdef" 3) = " abcdef" ∧
      sjoin (pySplit "abcdef") = "abcdef" := by
  refine ⟨by decide, by decide, by decide, by decide⟩

/-- Witness for the amended C5 on `"ab cd"` with budget 4 (forcing two
chunks). -/
theorem chunk_text_reconstructs_amended_witness :
    (∀ w ∈ (pySplit "ab cd").take 1, w.length + 1 ≤ 4) ∧
      sjoin (chunk_text "ab cd" 4) = sjoin (pySplit "ab cd") := by
  refine ⟨by decide, ?_⟩
  exact (chunk_text_reconstructs_amended "ab cd" 4 (by decide)).2
